import Mathlib

/-!
Verification of the Marian-on-CNTK emulation layer (Source/Dynamite/marian.h).

Shallow embedding conventions:
- a Shape in the emulated (Marian) convention is a list of naturals, axis 0
  first; the engine (CNTK) view shape is the same list in reversed order;
- graph expressions are a deep AST (GExpr) with one constructor per engine
  node kind that the emulation layer emits;
- float arithmetic of the layer is modelled exactly over the rationals;
- fatal errors (CNTK InvalidArgument / LogicError, ABORT) are modelled by
  returning none.
-/

namespace Marian

/-- Engine shape from an emulated shape (mappers::ToNDShape): the order of
axes is reversed, nothing else changes. -/
def ToNDShape (shape : List Nat) : List Nat := shape.reverse

/-- Conversion of an engine view shape back to an emulated Shape (the
ShapeProxy conversion operator): entry i of the result is entry
rank - 1 - i of the view shape. -/
def shapeProxyToShape (viewShape : List Nat) : List Nat :=
  (List.range viewShape.length).map (fun i => viewShape.getD (viewShape.length - 1 - i) 0)

/-- Axis conversion (mappers::ToCNTKAxis): a negative axis is normalized by
adding the rank; a normalized axis outside the valid range is a fatal
out-of-range error (none); otherwise the engine axis is rank - 1 - axis. -/
def ToCNTKAxis (rank : Nat) (axisIndex : Int) : Option Nat :=
  let a := if axisIndex < 0 then axisIndex + rank else axisIndex
  if a < 0 ∨ (rank : Int) ≤ a then none
  else some ((rank : Int) - 1 - a).toNat

/-- The normalized axis appearing in the specification formula
rank - 1 - (axis < 0 ? axis + rank : axis). -/
def normAxis (rank : Nat) (axisIndex : Int) : Int :=
  if axisIndex < 0 then axisIndex + rank else axisIndex

/-!
Graph expressions. An Expr of the emulation layer is a handle to one node
of the engine graph; the layer only ever builds nodes, so a deep AST with
one constructor per emitted node kind is a faithful model. Handle identity
is AST equality: an operator that returns its operand unchanged returns
the very same value. Reduction nodes carry the emulated (Marian) axis
index; the translation of that index to an engine axis is ToCNTKAxis and
is verified separately. The empty constructor is the null Variable used as
the canonical absent-operand sentinel. -/
inductive GExpr : Type where
  | empty : GExpr
  | leaf (id : Nat) : GExpr
  | scalarC (x : ℚ) : GExpr
  | neg (a : GExpr) : GExpr
  | plus (a b : GExpr) : GExpr
  | minus (a b : GExpr) : GExpr
  | times (a b : GExpr) : GExpr
  | divi (a b : GExpr) : GExpr
  | reduceSum (a : GExpr) (ax : Int) : GExpr
  | reduceMean (a : GExpr) (ax : Int) : GExpr
  | logSM (a : GExpr) : GExpr
  | crossEnt (o y : GExpr) : GExpr
  | expN (a : GExpr) : GExpr
  | logN (a : GExpr) : GExpr
  | flattenN (a : GExpr) : GExpr
deriving DecidableEq

/-- InternalOps::Scalar: a fresh scalar constant node (every number type is
cast to float before the node is built). -/
def Scalar (x : ℚ) : GExpr := GExpr.scalarC x

/-!
The scalar overloads of the arithmetic operators (marian.h lines 429-455).
Each C++ overload becomes one definition; int scalars are cast to float
when a node must be built, exactly as InternalOps::Scalar does. -/
/-- Overload Expr + float. -/
def addEF (a : GExpr) (b : ℚ) : GExpr := if b = 0 then a else GExpr.plus a (Scalar b)

/-- Overload Expr + int. -/
def addEI (a : GExpr) (b : Int) : GExpr := if b = 0 then a else GExpr.plus a (Scalar b)

/-- Overload Expr + double. -/
def addED (a : GExpr) (b : ℚ) : GExpr := if b = 0 then a else GExpr.plus a (Scalar b)

/-- Overload float + Expr. -/
def addFE (a : ℚ) (b : GExpr) : GExpr := if a = 0 then b else GExpr.plus (Scalar a) b

/-- Overload int + Expr. -/
def addIE (a : Int) (b : GExpr) : GExpr := if a = 0 then b else GExpr.plus (Scalar a) b

/-- Overload double + Expr. -/
def addDE (a : ℚ) (b : GExpr) : GExpr := if a = 0 then b else GExpr.plus (Scalar a) b

/-- Overload float - Expr. -/
def subFE (a : ℚ) (b : GExpr) : GExpr := if a = 0 then GExpr.neg b else GExpr.minus (Scalar a) b

/-- Overload Expr - float. -/
def subEF (a : GExpr) (b : ℚ) : GExpr := if b = 0 then a else GExpr.minus a (Scalar b)

/-- Overload Expr * float. -/
def mulEF (a : GExpr) (b : ℚ) : GExpr := if b = 1 then a else GExpr.times a (Scalar b)

/-- Overload Expr * int. -/
def mulEI (a : GExpr) (b : Int) : GExpr := if b = 1 then a else GExpr.times a (Scalar b)

/-- Overload Expr * double. -/
def mulED (a : GExpr) (b : ℚ) : GExpr := if b = 1 then a else GExpr.times a (Scalar b)

/-- Overload float * Expr. -/
def mulFE (a : ℚ) (b : GExpr) : GExpr := if a = 1 then b else GExpr.times (Scalar a) b

/-- Overload int * Expr. -/
def mulIE (a : Int) (b : GExpr) : GExpr := if a = 1 then b else GExpr.times (Scalar a) b

/-- Overload double * Expr. -/
def mulDE (a : ℚ) (b : GExpr) : GExpr := if a = 1 then b else GExpr.times (Scalar a) b

/-- Overload Expr / float. -/
def divEF (a : GExpr) (b : ℚ) : GExpr := if b = 1 then a else GExpr.divi a (Scalar b)

/-- Overload Expr / int. -/
def divEI (a : GExpr) (b : Int) : GExpr := if b = 1 then a else GExpr.divi a (Scalar b)

/-- Overload Expr / double. -/
def divED (a : GExpr) (b : ℚ) : GExpr := if b = 1 then a else GExpr.divi a (Scalar b)

/-- Operator cross_entropy: one-hot encodes the label indices along the
class axis and applies softmax cross-entropy; a single engine node in this
model. -/
def cross_entropy (o y : GExpr) : GExpr := GExpr.crossEnt o y

/-- Operator logsoftmax. -/
def logsoftmax (x : GExpr) : GExpr := GExpr.logSM x

/-- Operator sum(a, axis): reduce-sum along one emulated axis. -/
def sumAx (a : GExpr) (ax : Int) : GExpr := GExpr.reduceSum a ax

/-- Operator mean(a, axis): reduce-mean along one emulated axis. -/
def meanAx (a : GExpr) (ax : Int) : GExpr := GExpr.reduceMean a ax

/-- The per-token cost built at the top of Cost: cross-entropy, then the
smoothing interpolation (1 - smoothing) * ce - smoothing * mean-log-softmax
when smoothing is positive, then multiplication by the mask when a mask is
supplied. -/
def maskedCe (logits indices mask : GExpr) (smoothing : ℚ) : GExpr :=
  let ce0 := cross_entropy logits indices
  let ce1 :=
    if 0 < smoothing then
      GExpr.minus (mulFE (1 - smoothing) ce0) (mulFE smoothing (meanAx (logsoftmax logits) (-1)))
    else ce0
  if mask = GExpr.empty then ce1 else GExpr.times ce1 mask

/-- Operator Cost (marian.h lines 663-701), translated statement by
statement; the axis arguments are the emulated indices the source passes
(-3 for the sequence axis, -2 for the batch axis). -/
def Cost (logits indices mask : GExpr) (costType : String) (smoothing : ℚ) : GExpr :=
  let ce := maskedCe logits indices mask smoothing
  if costType = "ce-mean" ∨ costType = "cross-entropy" then
    meanAx (sumAx ce (-3)) (-2)
  else if costType = "ce-mean-words" then
    GExpr.divi (sumAx (sumAx ce (-3)) (-2)) (sumAx (sumAx mask (-3)) (-2))
  else if costType = "ce-sum" then
    sumAx (sumAx ce (-3)) (-2)
  else if costType = "perplexity" then
    GExpr.expN (GExpr.divi (sumAx (sumAx ce (-3)) (-2)) (sumAx (sumAx mask (-3)) (-2)))
  else if costType = "ce-rescore" then
    GExpr.neg (sumAx ce (-3))
  else
    meanAx (sumAx ce (-3)) (-2)

/-- The five reduction behaviours named by the specification. -/
inductive CostKind : Type where
  | ceMean : CostKind
  | ceMeanWords : CostKind
  | ceSum : CostKind
  | perplexity : CostKind
  | ceRescore : CostKind
deriving DecidableEq

/-- Which reduction the specification assigns to each costType string;
every unrecognized value falls back to ce-mean. -/
def classifyCostType (s : String) : CostKind :=
  if s = "ce-mean" ∨ s = "cross-entropy" then CostKind.ceMean
  else if s = "ce-mean-words" then CostKind.ceMeanWords
  else if s = "ce-sum" then CostKind.ceSum
  else if s = "perplexity" then CostKind.perplexity
  else if s = "ce-rescore" then CostKind.ceRescore
  else CostKind.ceMean

/-- Sum over the sequence axis, which the source addresses as emulated
axis -3. -/
def sumOverSequence (x : GExpr) : GExpr := sumAx x (-3)

/-- Mean over the batch axis, which the source addresses as emulated
axis -2. -/
def meanOverBatch (x : GExpr) : GExpr := meanAx x (-2)

/-- Sum over all tokens: sum over the sequence axis then over the batch
axis. -/
def sumOverAllTokens (x : GExpr) : GExpr := sumAx (sumAx x (-3)) (-2)

/-- The reduction the specification prescribes for each cost kind, applied
to the per-token cost and the mask. -/
def CostSpec (kind : CostKind) (ce mask : GExpr) : GExpr :=
  match kind with
  | CostKind.ceMean => meanOverBatch (sumOverSequence ce)
  | CostKind.ceMeanWords => GExpr.divi (sumOverAllTokens ce) (sumOverAllTokens mask)
  | CostKind.ceSum => sumOverAllTokens ce
  | CostKind.perplexity => GExpr.expN (GExpr.divi (sumOverAllTokens ce) (sumOverAllTokens mask))
  | CostKind.ceRescore => GExpr.neg (sumOverSequence ce)

/-!
Configuration dictionary. A CNTK Dictionary maps string keys to tagged
values with unique keys; it is modelled as an association list whose
lookup returns the first entry for a key. -/
/-- Lookup of a key in an association list, first entry wins. -/
def alookup {α : Type} {β : Type} [DecidableEq α] (k : α) : List (α × β) → Option β
  | [] => none
  | kv :: rest => if kv.1 = k then some kv.2 else alookup k rest

/-- Dictionary Contains. -/
def dcontains {β : Type} (d : List (String × β)) (k : String) : Bool :=
  (alookup k d).isSome

/-- Options::merge: iterate over the keys of the other dictionary and copy
each entry whose key this dictionary does not yet contain; existing
entries are left untouched and the other dictionary is only read. -/
def Options.merge {β : Type} (this other : List (String × β)) : List (String × β) :=
  other.foldl (fun acc kv => if dcontains acc kv.1 then acc else acc ++ [kv]) this

/-- A dictionary value kind used by the alignment-cost options: a string or
a float. -/
inductive DVal : Type where
  | str (s : String) : DVal
  | flt (x : ℚ) : DVal
deriving DecidableEq

/-- Typed string read from an Options dictionary: a missing key or a value
stored under another kind is a fatal error (none). -/
def getStringOpt (opts : List (String × DVal)) (k : String) : Option String :=
  match alookup k opts with
  | some (DVal.str s) => some s
  | _ => none

/-- Typed float read from an Options dictionary: a missing key or a value
stored under another kind is a fatal error (none). -/
def getFloatOpt (opts : List (String × DVal)) (k : String) : Option ℚ :=
  match alookup k opts with
  | some (DVal.flt x) => some x
  | _ => none

/-- Operator flatten. -/
def flattenOp (a : GExpr) : GExpr := GExpr.flattenN a

/-- Operator square: a * a through the elementwise product. -/
def square (a : GExpr) : GExpr := GExpr.times a a

/-- Operator log. -/
def logOp (a : GExpr) : GExpr := GExpr.logN a

/-- Operator sum with its default axis argument 0. -/
def sumDefault (a : GExpr) : GExpr := sumAx a 0

/-- Operator guidedAlignmentCost (marian.h lines 706-736): reads the
guided-alignment-cost option, builds the mse, mult or ce loss over the
attention and reference-alignment tensors (dimBatch is the batch extent
read from the attention shape), aborts on any other cost kind, and scales
the result by the guided-alignment-weight option. -/
def guidedAlignmentCost (opts : List (String × DVal)) (att aln : GExpr) (dimBatch : Int) :
    Option GExpr :=
  match getStringOpt opts "guided-alignment-cost" with
  | none => none
  | some guidedCostType =>
    let eps : ℚ := 1/1000000
    let alnCostOpt : Option GExpr :=
      if guidedCostType = "mse" then
        some (divEI (sumDefault (flattenOp (square (GExpr.minus att aln)))) (2 * dimBatch))
      else if guidedCostType = "mult" then
        some (divEI (GExpr.neg (logOp (addEF (sumDefault (flattenOp (GExpr.times att aln))) eps)))
          dimBatch)
      else if guidedCostType = "ce" then
        some (divEI (GExpr.neg (sumDefault (flattenOp (GExpr.times aln (logOp (addEF att eps))))))
          dimBatch)
      else none
    match alnCostOpt with
    | none => none
    | some alnCost =>
      match getFloatOpt opts "guided-alignment-weight" with
      | none => none
      | some guidedScalar => some (mulFE guidedScalar alnCost)

/-!
The named-parameter table of ExpressionGraph. A CNTK Parameter handle is
modelled by its allocation id together with the engine view shape it was
created with; handle equality is equality of this record. -/
/-- One engine trainable-tensor handle. -/
structure CParameter : Type where
  uid : Nat
  viewShape : List Nat
deriving DecidableEq

/-- An initializer, as far as param inspects it: either an ordinary
descriptor (constant fill, glorot, and so on) or the fake from_vector
dictionary wrapping a host buffer, modelled by its element list. -/
inductive ParamInit : Type where
  | descriptor : ParamInit
  | fromVector (data : List ℚ) : ParamInit
deriving DecidableEq

/-- Whether the initializer can materialize a tensor of the given view
shape: a from_vector buffer must hold exactly as many elements as the
shape, any other descriptor always fits. -/
def initFits (init : ParamInit) (viewShape : List Nat) : Bool :=
  match init with
  | ParamInit.descriptor => true
  | ParamInit.fromVector data => data.length = viewShape.prod

/-- The state of an ExpressionGraph that param touches: the name-to-handle
map, the parameter list, the gradient map (a null engine pointer is none),
and the next fresh allocation id. -/
structure ExpressionGraph : Type where
  m_allParametersMap : List (String × CParameter)
  m_allParameters : List CParameter
  m_allGradients : List (CParameter × Option Nat)
  nextUid : Nat

/-- ExpressionGraph::param (marian.h lines 757-793): on a new name, checks
the initializer against the converted view shape, allocates a parameter,
registers it in the map and the list and seeds its gradient entry with the
null pointer; on a known name, returns the stored handle unchanged if the
requested view shape matches and fails otherwise. -/
def ExpressionGraph.param (g : ExpressionGraph) (name : String) (shape : List Nat)
    (init : ParamInit) : Option (CParameter × ExpressionGraph) :=
  match alookup name g.m_allParametersMap with
  | none =>
    if initFits init (ToNDShape shape) then
      some (⟨g.nextUid, ToNDShape shape⟩,
        { m_allParametersMap := (name, ⟨g.nextUid, ToNDShape shape⟩) :: g.m_allParametersMap
          m_allParameters := g.m_allParameters ++ [⟨g.nextUid, ToNDShape shape⟩]
          m_allGradients := g.m_allGradients ++ [(⟨g.nextUid, ToNDShape shape⟩, none)]
          nextUid := g.nextUid + 1 })
    else none
  | some p => if p.viewShape = ToNDShape shape then some (p, g) else none

/-- Allocation ids already present in a graph are below the next fresh
id. -/
def ExpressionGraph.wf (g : ExpressionGraph) : Prop :=
  (∀ p ∈ g.m_allParameters, p.uid < g.nextUid) ∧
  (∀ q ∈ g.m_allGradients, q.1.uid < g.nextUid)

instance (g : ExpressionGraph) : Decidable g.wf := by
  unfold ExpressionGraph.wf
  infer_instance

/-- Graphs reachable from a starting graph by successful param calls. -/
inductive paramReach : ExpressionGraph → ExpressionGraph → Prop where
  | refl (g : ExpressionGraph) : paramReach g g
  | step {g1 g2 g3 : ExpressionGraph} {n : String} {s : List Nat} {i : ParamInit}
      {p : CParameter} :
      paramReach g1 g2 → g2.param n s i = some (p, g3) → paramReach g1 g3

/-!
Dropout. InternalOps::DropoutMask draws its mask on the host with the C
runtime generator; the code targets the Microsoft C runtime, whose
RAND_MAX is 32767 and is exactly representable in float, so exact
rational arithmetic models the comparison faithfully. A draw stream is a
function from draw index to a raw value; the C guarantee that rand
returns a value between 0 and RAND_MAX inclusive is modelled by reducing
each raw value modulo RAND_MAX + 1. -/
/-- The RAND_MAX of the targeted C runtime. -/
def cRandMax : Nat := 32767

/-- One bounded draw from a raw stream. -/
def drawAt (draws : Nat → Nat) (i : Nat) : Nat := draws i % (cRandMax + 1)

/-- InternalOps::DropoutMask (marian.h lines 404-417), for one given draw
stream: element i is 1 / keepProb when the i-th draw is strictly below
keepProb * RAND_MAX and 0 otherwise. -/
def DropoutMask (draws : Nat → Nat) (n : Nat) (dropProb : ℚ) : List ℚ :=
  let keepProb : ℚ := 1 - dropProb
  let randMaxTimesP : ℚ := keepProb * (cRandMax : ℚ)
  let invKeepProb : ℚ := 1 / keepProb
  (List.range n).map (fun i => if ((drawAt draws i : ℚ) < randMaxTimesP) then invKeepProb else 0)

/-- Operator dropout(x, mask): the elementwise product of the input with
the mask. -/
def dropoutWithMask (x mask : List ℚ) : List ℚ := x.zipWith (· * ·) mask

/-- Operator dropout(x, dropProb): multiplies the input with a freshly
drawn mask over as many elements as the input holds. -/
def dropoutOp (draws : Nat → Nat) (x : List ℚ) (dropProb : ℚ) : List ℚ :=
  dropoutWithMask x (DropoutMask draws x.length dropProb)

/-!
Determinism of the dropout masks across runs. The C runtime rand/srand
pair is modelled from the spec: the host random source is a deterministic
function of the last seed handed to srand and of the number of draws made
since, here a function from seed and draw index to a raw value. The
static counter inside InternalOps::DropoutMask starts at 1 and is
incremented once per call, each call reseeding the generator. -/
/-- Modelled from the spec: the host-side random source, a pure function
of the srand seed and the index of the draw after seeding. -/
def seededDraws (randAt : Nat → Nat → Nat) (seed : Nat) : Nat → Nat := randAt seed

/-- One DropoutMask call made with the static counter at the given
value: the call reseeds with the counter value and then draws its mask. -/
def DropoutMaskCall (randAt : Nat → Nat → Nat) (seed : Nat) (n : Nat) (p : ℚ) : List ℚ :=
  DropoutMask (seededDraws randAt seed) n p

/-- Running a sequence of dropout calls against the static counter,
incrementing it once per call. -/
def runDropoutCallsFrom (randAt : Nat → Nat → Nat) : Nat → List (Nat × ℚ) → List (List ℚ)
  | _, [] => []
  | seed, c :: rest => DropoutMaskCall randAt seed c.1 c.2 :: runDropoutCallsFrom randAt (seed + 1) rest

/-- One program run: the static counter starts at 1. -/
def runDropoutCalls (randAt : Nat → Nat → Nat) (calls : List (Nat × ℚ)) : List (List ℚ) :=
  runDropoutCallsFrom randAt 1 calls

/-!
Optimizer wrapper. The engine learner is an external collaborator: the
wrapper hands it the parameter list of the graph at the moment of the
first update and the learner thereafter applies gradient steps to exactly
the parameters it was constructed with. Parameter values live inside the
engine; a graph state here carries the registered parameter list, the
value of every handle and the gradient map. The step function itself is
engine math and is kept abstract. -/
/-- The training-relevant state of a graph for optimizer updates:
registered parameters, current engine-side values, gradient map. -/
structure PGraph : Type where
  m_allParameters : List Nat
  values : Nat → ℚ
  m_allGradients : Nat → Option ℚ

/-- Modelled from the spec: the engine learner update. A learner holds the
parameter list it was constructed with and one Update call applies the
gradient step to exactly those parameters, leaving every other handle
untouched. The concrete step math is the opaque engine service step. -/
def learnerUpdate (step : ℚ → Option ℚ → ℚ) (boundParams : List Nat) (g : PGraph) : PGraph :=
  { g with values := fun h => if h ∈ boundParams then step (g.values h) (g.m_allGradients h) else g.values h }

/-- The wrapper state: nothing but the construction recipe while unbound,
the learner with its frozen parameter list once bound. -/
structure OptimizerWrapper : Type where
  m_learner : Option (List Nat)

/-- OptimizerWrapper::update (marian.h lines 855-861): the first call
creates the learner from the parameter set of the graph as it exists at
that moment; every call then delegates one step to the learner. -/
def OptimizerWrapper.update (step : ℚ → Option ℚ → ℚ) (o : OptimizerWrapper) (g : PGraph) :
    OptimizerWrapper × PGraph :=
  match o.m_learner with
  | none => (⟨some g.m_allParameters⟩, learnerUpdate step g.m_allParameters g)
  | some l => (⟨some l⟩, learnerUpdate step l g)

theorem shapeProxyToShape_eq_reverse (l : List Nat) :
    shapeProxyToShape l = l.reverse := by
  apply List.ext_getElem
  · simp [shapeProxyToShape]
  · intro i h1 h2
    simp only [shapeProxyToShape, List.getElem_map, List.getElem_range]
    have hi : i < l.length := by simpa [shapeProxyToShape] using h1
    have hlt : l.length - 1 - i < l.length := by omega
    rw [List.getD_eq_getElem l 0 hlt, List.getElem_reverse]

/-- C1: the axis conversion maps a signed emulated axis a to engine axis
rank - 1 - normAxis whenever the normalized axis lies in the valid range,
and signals an out-of-range error (none, never a wrapped value) otherwise. -/
theorem ToCNTKAxis_spec (r : Nat) (a : Int) (hr : 1 ≤ r) :
    (0 ≤ normAxis r a ∧ normAxis r a < r →
      ∃ m, ToCNTKAxis r a = some m ∧ (m : Int) = (r : Int) - 1 - normAxis r a) ∧
    (¬ (0 ≤ normAxis r a ∧ normAxis r a < r) → ToCNTKAxis r a = none) := by
  have hform : ToCNTKAxis r a =
      if normAxis r a < 0 ∨ (r : Int) ≤ normAxis r a then none
      else some ((r : Int) - 1 - normAxis r a).toNat := rfl
  constructor
  · intro h
    refine ⟨((r : Int) - 1 - normAxis r a).toNat, ?_, ?_⟩
    · rw [hform, if_neg (by omega)]
    · omega
  · intro h
    rw [hform, if_pos (by omega)]

theorem ToCNTKAxis_spec_witness :
    (1 ≤ 3) ∧
    ((0 ≤ normAxis 3 (-1) ∧ normAxis 3 (-1) < 3 →
      ∃ m, ToCNTKAxis 3 (-1) = some m ∧ (m : Int) = (3 : Int) - 1 - normAxis 3 (-1)) ∧
    (¬ (0 ≤ normAxis 3 (-1) ∧ normAxis 3 (-1) < 3) → ToCNTKAxis 3 (-1) = none)) :=
  ⟨by decide, ToCNTKAxis_spec 3 (-1) (by decide)⟩

/-- C2: converting a Shape to the engine shape and back through the
ShapeProxy conversion is the identity; the reversal is self-inverse and
preserves rank and total element count. -/
theorem shape_roundtrip (s : List Nat) :
    shapeProxyToShape (ToNDShape s) = s ∧
    ToNDShape (ToNDShape s) = s ∧
    (ToNDShape s).prod = s.prod ∧
    (ToNDShape s).length = s.length := by
  refine ⟨?_, ?_, ?_, ?_⟩
  · rw [ToNDShape, shapeProxyToShape_eq_reverse, List.reverse_reverse]
  · simp [ToNDShape]
  · rw [ToNDShape]; exact List.prod_reverse s
  · simp [ToNDShape]

/-- C5: every scalar identity shortcut returns the original operand itself,
for each of the int, float and double overloads: x + 0, 0 + x, x * 1,
1 * x and x / 1 all yield x with no new graph node. -/
theorem scalar_identity_shortcuts (x : GExpr) :
    addEF x 0 = x ∧ addEI x 0 = x ∧ addED x 0 = x ∧
    addFE 0 x = x ∧ addIE 0 x = x ∧ addDE 0 x = x ∧
    mulEF x 1 = x ∧ mulEI x 1 = x ∧ mulED x 1 = x ∧
    mulFE 1 x = x ∧ mulIE 1 x = x ∧ mulDE 1 x = x ∧
    divEF x 1 = x ∧ divEI x 1 = x ∧ divED x 1 = x := by
  refine ⟨?_, ?_, ?_, ?_, ?_, ?_, ?_, ?_, ?_, ?_, ?_, ?_, ?_, ?_, ?_⟩ <;>
    simp [addEF, addEI, addED, addFE, addIE, addDE,
          mulEF, mulEI, mulED, mulFE, mulIE, mulDE,
          divEF, divEI, divED]

/-- C4: for every input, Cost reduces the (optionally smoothed, optionally
mask-multiplied) per-token cross-entropy exactly as the specification
table prescribes for its costType, with unrecognized values behaving like
ce-mean. -/
theorem Cost_matches_spec (logits indices mask : GExpr) (costType : String) (smoothing : ℚ) :
    Cost logits indices mask costType smoothing =
      CostSpec (classifyCostType costType) (maskedCe logits indices mask smoothing) mask := by
  unfold Cost CostSpec classifyCostType
  split_ifs <;> rfl

theorem alookup_append {α β : Type} [DecidableEq α] (k : α) (l1 l2 : List (α × β)) :
    alookup k (l1 ++ l2) =
      match alookup k l1 with
      | some v => some v
      | none => alookup k l2 := by
  induction l1 with
  | nil => simp [alookup]
  | cons kv rest ih =>
    by_cases h : kv.1 = k
    · simp [alookup, h]
    · simp [alookup, h, ih]

theorem merge_lookup_some {β : Type} (b a : List (String × β)) {k : String} {v : β}
    (h : alookup k a = some v) : alookup k (Options.merge a b) = some v := by
  induction b generalizing a with
  | nil => exact h
  | cons kv rest ih =>
    show alookup k (Options.merge (if dcontains a kv.1 then a else a ++ [kv]) rest) = some v
    by_cases hc : dcontains a kv.1 = true
    · rw [if_pos hc]
      exact ih a h
    · rw [if_neg hc]
      refine ih (a ++ [kv]) ?_
      rw [alookup_append, h]

theorem merge_lookup_none {β : Type} (b a : List (String × β)) {k : String}
    (h : alookup k a = none) : alookup k (Options.merge a b) = alookup k b := by
  induction b generalizing a with
  | nil =>
    show alookup k a = alookup k ([] : List (String × β))
    rw [h]
    rfl
  | cons kv rest ih =>
    show alookup k (Options.merge (if dcontains a kv.1 then a else a ++ [kv]) rest) =
      alookup k (kv :: rest)
    by_cases hk : kv.1 = k
    · subst hk
      by_cases hc : dcontains a kv.1 = true
      · exfalso
        unfold dcontains at hc
        rw [h] at hc
        simp at hc
      · rw [if_neg hc]
        have hsome : alookup kv.1 (a ++ [kv]) = some kv.2 := by
          rw [alookup_append, h]
          simp [alookup]
        rw [merge_lookup_some rest (a ++ [kv]) hsome]
        simp [alookup]
    · have hpres : alookup k (if dcontains a kv.1 then a else a ++ [kv]) = none := by
        split_ifs
        · exact h
        · rw [alookup_append, h]
          simp [alookup, hk]
      rw [ih _ hpres]
      simp [alookup, hk]

/-- C7: merging dictionary B into dictionary A adds every key of B that A
lacks, keeping the value from B there, and never overwrites a key already
present in A (first writer wins); B itself is only read. In particular
merging A = [lr, 1/10] with B = [lr, 2/10; seed, 42] keeps the value of A
for lr and adds seed. -/
theorem merge_spec :
    (∀ (β : Type) (a b : List (String × β)) (k : String),
      alookup k (Options.merge a b) =
        match alookup k a with
        | some v => some v
        | none => alookup k b) ∧
    Options.merge [("lr", (1 : ℚ)/10)] [("lr", (2 : ℚ)/10), ("seed", (42 : ℚ))] =
      [("lr", (1 : ℚ)/10), ("seed", (42 : ℚ))] := by
  constructor
  · intro β a b k
    cases h : alookup k a with
    | none => rw [merge_lookup_none b a h]
    | some v => rw [merge_lookup_some b a h]
  · norm_num [Options.merge, dcontains, alookup]
    decide

/-- C9: with the weight option present, guidedAlignmentCost yields exactly
the mse loss (normalized by 2 * dimBatch), the mult loss or the ce loss
(each normalized by dimBatch), scaled by the weight, for the three
recognized cost kinds, and is a fatal error for every other value of the
guided-alignment-cost option. -/
theorem guidedAlignmentCost_spec (opts : List (String × DVal)) (att aln : GExpr)
    (dimBatch : Int) (ct : String) (w : ℚ)
    (hct : getStringOpt opts "guided-alignment-cost" = some ct)
    (hw : getFloatOpt opts "guided-alignment-weight" = some w) :
    (ct = "mse" → guidedAlignmentCost opts att aln dimBatch =
      some (mulFE w (divEI (sumDefault (flattenOp (square (GExpr.minus att aln))))
        (2 * dimBatch)))) ∧
    (ct = "mult" → guidedAlignmentCost opts att aln dimBatch =
      some (mulFE w (divEI
        (GExpr.neg (logOp (addEF (sumDefault (flattenOp (GExpr.times att aln))) (1/1000000))))
        dimBatch))) ∧
    (ct = "ce" → guidedAlignmentCost opts att aln dimBatch =
      some (mulFE w (divEI
        (GExpr.neg (sumDefault (flattenOp (GExpr.times aln (logOp (addEF att (1/1000000)))))))
        dimBatch))) ∧
    (ct ≠ "mse" → ct ≠ "mult" → ct ≠ "ce" →
      guidedAlignmentCost opts att aln dimBatch = none) := by
  refine ⟨?_, ?_, ?_, ?_⟩
  · intro h
    subst h
    simp [guidedAlignmentCost, hct, hw]
  · intro h
    subst h
    simp [guidedAlignmentCost, hct, hw]
  · intro h
    subst h
    simp [guidedAlignmentCost, hct, hw]
  · intro h1 h2 h3
    simp [guidedAlignmentCost, hct, hw, h1, h2, h3]

theorem guidedAlignmentCost_spec_witness :
    (getStringOpt [("guided-alignment-cost", DVal.str "mult"),
        ("guided-alignment-weight", DVal.flt 2)] "guided-alignment-cost" = some "mult") ∧
    (getFloatOpt [("guided-alignment-cost", DVal.str "mult"),
        ("guided-alignment-weight", DVal.flt 2)] "guided-alignment-weight" = some 2) ∧
    (("mult" : String) = "mult" →
      guidedAlignmentCost [("guided-alignment-cost", DVal.str "mult"),
          ("guided-alignment-weight", DVal.flt 2)] (GExpr.leaf 0) (GExpr.leaf 1) 3 =
        some (mulFE 2 (divEI
          (GExpr.neg (logOp (addEF
            (sumDefault (flattenOp (GExpr.times (GExpr.leaf 0) (GExpr.leaf 1)))) (1/1000000))))
          3))) :=
  ⟨by decide, by decide, by
    intro h
    exact (guidedAlignmentCost_spec
      [("guided-alignment-cost", DVal.str "mult"), ("guided-alignment-weight", DVal.flt 2)]
      (GExpr.leaf 0) (GExpr.leaf 1) 3 "mult" 2 (by decide)
      (by decide)).2.1 h⟩

theorem alookup_eq_none_of_uid {k : CParameter} {l : List (CParameter × Option Nat)}
    (h : ∀ q ∈ l, q.1.uid < k.uid) : alookup k l = none := by
  induction l with
  | nil => rfl
  | cons kv rest ih =>
    have hne : ¬ kv.1 = k := by
      intro he
      have := h kv (List.mem_cons_self kv rest)
      rw [he] at this
      omega
    simp only [alookup, if_neg hne]
    exact ih fun q hq => h q (List.mem_cons_of_mem kv hq)

/-- A registered name keeps its handle across every further successful
param call. -/
theorem param_lookup_stable {g1 g2 : ExpressionGraph} {name : String} {p : CParameter}
    (hreach : paramReach g1 g2) (h : alookup name g1.m_allParametersMap = some p) :
    alookup name g2.m_allParametersMap = some p := by
  induction hreach with
  | refl => exact h
  | @step gb gc n s i q hr hcall ih =>
    unfold ExpressionGraph.param at hcall
    split at hcall
    · rename_i hl
      split at hcall
      · injection hcall with hpq
        injection hpq with hq hgc
        subst hgc
        have hne : ¬ n = name := by
          intro he
          rw [he, ih] at hl
          exact Option.noConfusion hl
        show alookup name ((n, ⟨gb.nextUid, ToNDShape s⟩) :: gb.m_allParametersMap) = some p
        simp only [alookup, if_neg hne]
        exact ih
      · exact Option.noConfusion hcall
    · rename_i q2 hl
      split at hcall
      · injection hcall with hpq
        injection hpq with hq hgc
        subst hgc
        exact ih
      · exact Option.noConfusion hcall

/-- C3: registering a fresh name allocates a handle not present before,
registers it and seeds its gradient entry with the null pointer, and in
every graph reachable from that point a repeated request for the name with
the same shape returns the identical handle with the graph untouched,
while a request with any different shape is a fatal error. -/
theorem param_register_spec (g : ExpressionGraph) (name : String) (shape : List Nat)
    (init : ParamInit) (hwf : g.wf)
    (hnew : alookup name g.m_allParametersMap = none)
    (hfit : initFits init (ToNDShape shape) = true) :
    ∃ p g2, g.param name shape init = some (p, g2) ∧
      p.viewShape = ToNDShape shape ∧
      p ∉ g.m_allParameters ∧
      alookup name g2.m_allParametersMap = some p ∧
      p ∈ g2.m_allParameters ∧
      alookup p g2.m_allGradients = some none ∧
      (∀ g3, paramReach g2 g3 →
        (∀ init2, g3.param name shape init2 = some (p, g3)) ∧
        (∀ shape2 init2, shape2 ≠ shape → g3.param name shape2 init2 = none)) := by
  refine ⟨⟨g.nextUid, ToNDShape shape⟩,
    { m_allParametersMap := (name, ⟨g.nextUid, ToNDShape shape⟩) :: g.m_allParametersMap
      m_allParameters := g.m_allParameters ++ [⟨g.nextUid, ToNDShape shape⟩]
      m_allGradients := g.m_allGradients ++ [(⟨g.nextUid, ToNDShape shape⟩, none)]
      nextUid := g.nextUid + 1 }, ?_, rfl, ?_, ?_, ?_, ?_, ?_⟩
  · unfold ExpressionGraph.param
    rw [hnew, if_pos hfit]
  · intro hmem
    have := hwf.1 _ hmem
    simp at this
  · simp [alookup]
  · simp
  · rw [alookup_append, alookup_eq_none_of_uid hwf.2]
    simp [alookup]
  · intro g3 hreach
    have hl3 : alookup name g3.m_allParametersMap = some ⟨g.nextUid, ToNDShape shape⟩ :=
      param_lookup_stable hreach (by simp [alookup])
    constructor
    · intro init2
      unfold ExpressionGraph.param
      rw [hl3]
      simp
    · intro shape2 init2 hne
      unfold ExpressionGraph.param
      rw [hl3]
      have hns : ¬ ToNDShape shape = ToNDShape shape2 := by
        unfold ToNDShape
        rw [List.reverse_inj]
        exact fun he => hne he.symm
      simp [hns]

theorem param_register_spec_witness :
    ((⟨[], [], [], 0⟩ : ExpressionGraph).wf ∧
      alookup "W1" (⟨[], [], [], 0⟩ : ExpressionGraph).m_allParametersMap = none ∧
      initFits ParamInit.descriptor (ToNDShape [2, 2]) = true) ∧
    (∃ p g2, (⟨[], [], [], 0⟩ : ExpressionGraph).param "W1" [2, 2] ParamInit.descriptor =
        some (p, g2) ∧
      p.viewShape = ToNDShape [2, 2] ∧
      p ∉ (⟨[], [], [], 0⟩ : ExpressionGraph).m_allParameters ∧
      alookup "W1" g2.m_allParametersMap = some p ∧
      p ∈ g2.m_allParameters ∧
      alookup p g2.m_allGradients = some none ∧
      (∀ g3, paramReach g2 g3 →
        (∀ init2, g3.param "W1" [2, 2] init2 = some (p, g3)) ∧
        (∀ shape2 init2, shape2 ≠ [2, 2] → g3.param "W1" shape2 init2 = none))) :=
  ⟨⟨by decide, by decide, by decide⟩,
    param_register_spec ⟨[], [], [], 0⟩ "W1" [2, 2] ParamInit.descriptor
      (by decide) (by decide) (by decide)⟩

theorem zipWith_mul_replicate_zero (x : List ℚ) :
    x.zipWith (· * ·) (List.replicate x.length 0) = List.replicate x.length 0 := by
  induction x with
  | nil => rfl
  | cons a rest ih => simp [List.replicate, ih]

theorem zipWith_mul_replicate_one (x : List ℚ) :
    x.zipWith (· * ·) (List.replicate x.length 1) = x := by
  induction x with
  | nil => rfl
  | cons a rest ih => simp [List.replicate, ih]

/-- C6 counterexample: with drop probability 0 the comparison is
rand < RAND_MAX, so a draw that hits RAND_MAX itself produces a 0 mask
element and the input is not returned unchanged. -/
theorem dropout_prob_zero_counterexample :
    dropoutOp (fun _ => 32767) [5] 0 ≠ [5] ∧
    DropoutMask (fun _ => 32767) 1 0 = [0] := by
  have hmask : DropoutMask (fun _ => 32767) 1 0 = [0] := by
    norm_num [DropoutMask, drawAt, cRandMax, List.range_succ, List.range_zero]
  refine ⟨?_, hmask⟩
  have h5 : ([5] : List ℚ).length = 1 := rfl
  rw [dropoutOp, h5, hmask, dropoutWithMask]
  norm_num [List.zipWith]

/-- C6 amended: every mask element is either 0 or 1 / (1 - dropProb);
with drop probability 1 the result is all zeros; with drop probability 0
the input is returned unchanged provided no draw in range hits RAND_MAX
exactly (a draw equal to RAND_MAX zeroes its element). -/
theorem dropout_spec (draws : Nat → Nat) (x : List ℚ) (dropProb : ℚ) :
    (∀ m ∈ DropoutMask draws x.length dropProb, m = 0 ∨ m = 1 / (1 - dropProb)) ∧
    dropoutOp draws x 1 = List.replicate x.length 0 ∧
    ((∀ i < x.length, drawAt draws i < cRandMax) → dropoutOp draws x 0 = x) := by
  refine ⟨?_, ?_, ?_⟩
  · intro m hm
    simp only [DropoutMask, List.mem_map, List.mem_range] at hm
    obtain ⟨i, hi, hmi⟩ := hm
    by_cases hc : ((drawAt draws i : ℚ) < (1 - dropProb) * (cRandMax : ℚ))
    · right
      rw [← hmi, if_pos hc]
    · left
      rw [← hmi, if_neg hc]
  · have hmask : DropoutMask draws x.length 1 = List.replicate x.length 0 := by
      refine List.eq_replicate_iff.mpr ⟨by simp [DropoutMask], ?_⟩
      intro m hm
      simp only [DropoutMask, List.mem_map, List.mem_range] at hm
      obtain ⟨i, hi, hmi⟩ := hm
      rw [← hmi, if_neg ?_]
      simp
    rw [dropoutOp, hmask, dropoutWithMask, zipWith_mul_replicate_zero]
  · intro hdraws
    have hmask : DropoutMask draws x.length 0 = List.replicate x.length 1 := by
      apply List.ext_getElem
      · simp [DropoutMask]
      · intro i h1 h2
        have hi : i < x.length := by simpa [DropoutMask] using h1
        simp only [DropoutMask, List.getElem_map, List.getElem_range, List.getElem_replicate]
        rw [if_pos ?_]
        · norm_num
        · have hlt := hdraws i hi
          have : (drawAt draws i : ℚ) < (cRandMax : ℚ) := by
            exact_mod_cast hlt
          simpa using this
    rw [dropoutOp, hmask, dropoutWithMask, zipWith_mul_replicate_one]

theorem dropout_spec_witness :
    (∀ i < ([3, 4] : List ℚ).length, drawAt (fun _ => 0) i < cRandMax) ∧
    ((∀ m ∈ DropoutMask (fun _ => 0) ([3, 4] : List ℚ).length (1/2),
        m = 0 ∨ m = 1 / (1 - 1/2)) ∧
    dropoutOp (fun _ => 0) [3, 4] 1 = List.replicate ([3, 4] : List ℚ).length 0 ∧
    ((∀ i < ([3, 4] : List ℚ).length, drawAt (fun _ => 0) i < cRandMax) →
      dropoutOp (fun _ => 0) [3, 4] 0 = [3, 4])) :=
  ⟨by decide, dropout_spec (fun _ => 0) [3, 4] (1/2)⟩

theorem runDropoutCallsFrom_length (randAt : Nat → Nat → Nat) :
    ∀ (calls : List (Nat × ℚ)) (seed : Nat),
      (runDropoutCallsFrom randAt seed calls).length = calls.length := by
  intro calls
  induction calls with
  | nil => intro seed; rfl
  | cons c rest ih => intro seed; simp [runDropoutCallsFrom, ih]

theorem runDropoutCallsFrom_getD (randAt : Nat → Nat → Nat) :
    ∀ (calls : List (Nat × ℚ)) (seed i : Nat), i < calls.length →
      (runDropoutCallsFrom randAt seed calls).getD i [] =
        DropoutMaskCall randAt (seed + i) (calls.getD i (0, 0)).1 (calls.getD i (0, 0)).2 := by
  intro calls
  induction calls with
  | nil => intro seed i h; simp at h
  | cons c rest ih =>
    intro seed i h
    cases i with
    | zero => simp [runDropoutCallsFrom]
    | succ j =>
      have hj : j < rest.length := by simpa using h
      have := ih (seed + 1) j hj
      simp only [runDropoutCallsFrom, List.getD_cons_succ]
      rw [this]
      congr 1
      omega

/-- C10: the mask a dropout call produces is a function of the fixed host
random source, the position of the call in the run and the call arguments
alone, with the reseeding counter starting at 1 and growing by one per
call; hence two runs executing the same sequence of dropout calls obtain
element-for-element identical masks. -/
theorem dropout_deterministic (randAt : Nat → Nat → Nat) (calls : List (Nat × ℚ))
    (i : Nat) (hi : i < calls.length) :
    (runDropoutCalls randAt calls).length = calls.length ∧
    (runDropoutCalls randAt calls).getD i [] =
      DropoutMaskCall randAt (1 + i) (calls.getD i (0, 0)).1 (calls.getD i (0, 0)).2 := by
  constructor
  · exact runDropoutCallsFrom_length randAt calls 1
  · exact runDropoutCallsFrom_getD randAt calls 1 i hi

theorem dropout_deterministic_witness :
    (1 < ([(1, (1 : ℚ)/2), (2, 0)] : List (Nat × ℚ)).length) ∧
    ((runDropoutCalls (fun s k => s + k) [(1, (1 : ℚ)/2), (2, 0)]).length =
      ([(1, (1 : ℚ)/2), (2, 0)] : List (Nat × ℚ)).length ∧
    (runDropoutCalls (fun s k => s + k) [(1, (1 : ℚ)/2), (2, 0)]).getD 1 [] =
      DropoutMaskCall (fun s k => s + k) (1 + 1)
        (([(1, (1 : ℚ)/2), (2, 0)] : List (Nat × ℚ)).getD 1 (0, 0)).1
        (([(1, (1 : ℚ)/2), (2, 0)] : List (Nat × ℚ)).getD 1 (0, 0)).2) :=
  ⟨by decide, dropout_deterministic (fun s k => s + k) [(1, (1 : ℚ)/2), (2, 0)] 1 (by decide)⟩

/-- C8: the wrapper is a two-state machine. The first update of an unbound
wrapper binds it to the parameter set of that graph at that moment; a
bound wrapper stays bound to the same set forever, and any parameter
outside that set, such as one registered after the first update, keeps
its value unchanged through every subsequent update, for every step
function. -/
theorem optimizer_binding_spec (step : ℚ → Option ℚ → ℚ) (g1 : PGraph)
    (l : List Nat) (g2 : PGraph) (p : Nat) (hp : p ∉ l) :
    ((⟨none⟩ : OptimizerWrapper).update step g1).1.m_learner = some g1.m_allParameters ∧
    ((⟨some l⟩ : OptimizerWrapper).update step g2).1.m_learner = some l ∧
    ((⟨some l⟩ : OptimizerWrapper).update step g2).2.values p = g2.values p ∧
    ((⟨some l⟩ : OptimizerWrapper).update step g2).2.m_allParameters = g2.m_allParameters := by
  refine ⟨rfl, rfl, ?_, rfl⟩
  show (if p ∈ l then step (g2.values p) (g2.m_allGradients p) else g2.values p) = g2.values p
  rw [if_neg hp]

theorem optimizer_binding_spec_witness :
    ((1 : Nat) ∉ [0]) ∧
    (((⟨none⟩ : OptimizerWrapper).update (fun v _ => v - 1)
        ⟨[0], fun _ => 0, fun _ => none⟩).1.m_learner = some [0] ∧
    ((⟨some [0]⟩ : OptimizerWrapper).update (fun v _ => v - 1)
        ⟨[0, 1], fun _ => 0, fun _ => none⟩).1.m_learner = some [0] ∧
    ((⟨some [0]⟩ : OptimizerWrapper).update (fun v _ => v - 1)
        ⟨[0, 1], fun _ => 0, fun _ => none⟩).2.values 1 =
      (⟨[0, 1], fun _ => 0, fun _ => none⟩ : PGraph).values 1 ∧
    ((⟨some [0]⟩ : OptimizerWrapper).update (fun v _ => v - 1)
        ⟨[0, 1], fun _ => 0, fun _ => none⟩).2.m_allParameters =
      (⟨[0, 1], fun _ => 0, fun _ => none⟩ : PGraph).m_allParameters) :=
  ⟨by decide,
    optimizer_binding_spec (fun v _ => v - 1) ⟨[0], fun _ => 0, fun _ => none⟩ [0]
      ⟨[0, 1], fun _ => 0, fun _ => none⟩ 1 (by decide)⟩

end Marian
